import Mathlib

/-!
Verification development for the client-side session / authorization core of
the `react-frontend` repository (movie catalog SPA).

The modelled source files are:
* `src/components/` auth provider (`AuthProvider`: `decodeJwtPayload`,
  `applyToken`, `silentRefresh`, `login`, `logout`, `hasRole`,
  `clearRefreshTimer`);
* `src/services/auditLogger.ts` (`hashEmail`, `buildEvent`, the enqueue
  operations);
* `src/services/apiClient.ts` (`apiFetch` response-status handling).

JavaScript runtime behaviour is embedded shallowly: JSON values are an
inductive `JsVal` (with an `undefined` constructor for absent-property access),
JSON numbers are exact unreduced fractions `mant / 10^k` (a `Decimal`),
`JSON.parse` and `atob` are executable fuel/structural recursions, and the
stateful auth provider becomes an explicit state machine on `AuthState`.
-/

namespace ReactFrontend

/-! ### JavaScript value model -/

/-- Decimal fraction `num / den`; the JSON number grammar only produces
denominators `10^k`, so values are exact.  Used for the token `exp` field and
for `setTimeout` delays (`payload.exp - nowSeconds - REFRESH_BUFFER_SECONDS`
can be fractional for a fractional `exp`). -/
structure Decimal where
  num : Int
  den : Nat
  deriving Repr, DecidableEq

/-- Subtraction of an integer, as in `payload.exp - nowSeconds`. -/
def Decimal.subInt (x : Decimal) (k : Int) : Decimal :=
  ⟨x.num - k * (x.den : Int), x.den⟩

/-- Multiplication by a natural, as in `secondsUntilRefresh * 1000`. -/
def Decimal.mulNat (x : Decimal) (k : Nat) : Decimal :=
  ⟨x.num * (k : Int), x.den⟩

/-- Strict positivity test used for `secondsUntilRefresh > 0` (the parser only
produces positive denominators, for which `0 < num` is equivalent to the
real-number comparison). -/
def Decimal.isPos (x : Decimal) : Bool :=
  0 < x.num

/-- JavaScript values reachable in the modelled code: `undefined`, `null`,
booleans, numbers, strings, arrays and plain objects (field list in source
order; `JSON.parse` keeps duplicate keys, later keys win on access). -/
inductive JsVal where
  | undefined
  | jnull
  | jbool (b : Bool)
  | jnum (value : Decimal)
  | jstr (s : String)
  | jarr (elems : List JsVal)
  | jobj (fields : List (String × JsVal))

/-- JavaScript truthiness for the values produced by `JSON.parse`
(`undefined`, `null`, `false`, `0`, `""` are falsy; objects and arrays are
always truthy).  Models the `if (!payload) return;` guard. -/
def JsVal.truthy : JsVal → Bool
  | .undefined => false
  | .jnull => false
  | .jbool b => b
  | .jnum v => v.num != 0
  | .jstr s => s != ""
  | .jarr _ => true
  | .jobj _ => true

/-- Last-binding lookup in an object field list (JS property access after
`JSON.parse`, where a later duplicate key overwrites an earlier one). -/
def lookupLast (fields : List (String × JsVal)) (key : String) : JsVal :=
  fields.foldl (fun acc p => if p.1 == key then p.2 else acc) JsVal.undefined

/-- Property access `v[key]`: field lookup on objects, `undefined` otherwise
(the modelled code only reads data properties such as `payload.sub`,
`payload.exp`, `data.accessToken`, `body['message']`). -/
def JsVal.getProp (v : JsVal) (key : String) : JsVal :=
  match v with
  | .jobj fields => lookupLast fields key
  | _ => .undefined

/-- Numeric coercion used by the subtraction in `applyToken`:
`none` stands for NaN.  A number coerces to itself; `undefined` (a missing
`exp` claim) coerces to NaN.  Other shapes of `exp` are conservatively
modelled as NaN as well (their `ToNumber` string/boolean coercions are outside
the modelled input domain); in every such case the source arms no timer, and
neither does the model, because `NaN > 0` is false. -/
def JsVal.toNumber : JsVal → Option Decimal
  | .jnum v => some v
  | _ => none

/-! ### JSON.parse

Executable recursive-descent JSON parser (structural recursion on explicit
fuel, so that concrete inputs evaluate definitionally).  Follows the JSON
grammar accepted by `JSON.parse`: optional whitespace, strict number syntax
(no leading zeros), string escapes, arrays and objects.  Modelling notes:
`\uXXXX` escapes are mapped through `Char.ofNat` (surrogate pairs are not
recombined — no modelled input contains them); numbers are kept as exact
decimal fractions. -/

/-- JSON insignificant whitespace. -/
def isJsonWs (c : Char) : Bool :=
  c == ' ' || c == '\t' || c == '\n' || c == '\r'

/-- Drop leading JSON whitespace. -/
def skipWs : List Char → List Char
  | [] => []
  | c :: cs => if isJsonWs c then skipWs cs else c :: cs

/-- Hex digit value of a character, if any (code points `0-9`, `a-f`, `A-F`). -/
def hexVal (c : Char) : Option Nat :=
  let n := c.toNat
  if 48 ≤ n && n ≤ 57 then some (n - 48)
  else if 97 ≤ n && n ≤ 102 then some (n - 87)
  else if 65 ≤ n && n ≤ 70 then some (n - 55)
  else none

/-- Parse the body of a JSON string literal (opening quote already consumed),
accumulating characters; handles the escape sequences of the JSON grammar. -/
def parseStrBody (acc : List Char) : List Char → Option (String × List Char)
  | [] => none
  | '"' :: rest => some (⟨acc.reverse⟩, rest)
  | '\\' :: rest =>
    match rest with
    | '"' :: rs => parseStrBody ('"' :: acc) rs
    | '\\' :: rs => parseStrBody ('\\' :: acc) rs
    | '/' :: rs => parseStrBody ('/' :: acc) rs
    | 'b' :: rs => parseStrBody ('\x08' :: acc) rs
    | 'f' :: rs => parseStrBody ('\x0c' :: acc) rs
    | 'n' :: rs => parseStrBody ('\n' :: acc) rs
    | 'r' :: rs => parseStrBody ('\r' :: acc) rs
    | 't' :: rs => parseStrBody ('\t' :: acc) rs
    | 'u' :: h1 :: h2 :: h3 :: h4 :: rs =>
      match hexVal h1, hexVal h2, hexVal h3, hexVal h4 with
      | some a, some b, some c, some d =>
        parseStrBody (Char.ofNat (((a * 16 + b) * 16 + c) * 16 + d) :: acc) rs
      | _, _, _, _ => none
    | _ => none
  | c :: rest =>
    if c.toNat < 0x20 then none else parseStrBody (c :: acc) rest

/-- Longest prefix of decimal digits, as digits and remainder. -/
def spanDigits : List Char → List Nat × List Char
  | [] => ([], [])
  | c :: cs =>
    if '0' ≤ c && c ≤ '9' then
      let (ds, rest) := spanDigits cs
      ((c.toNat - '0'.toNat) :: ds, rest)
    else ([], c :: cs)

/-- Natural number denoted by a digit list. -/
def digitsToNat (ds : List Nat) : Nat :=
  ds.foldl (fun acc d => acc * 10 + d) 0

/-- Finish a JSON number: optional exponent suffix after the mantissa
`sign * mant / den0`. -/
def finishNumber (sign : Int) (mant : Nat) (den0 : Nat) (cs : List Char) :
    Option (Decimal × List Char) :=
  match cs with
  | 'e' :: rest => expPart rest
  | 'E' :: rest => expPart rest
  | _ => some (⟨sign * (mant : Int), den0⟩, cs)
where
  /-- Parse the exponent digits after `e`/`E` with optional sign. -/
  expPart (cs : List Char) : Option (Decimal × List Char) :=
    let (negExp, cs') : Bool × List Char :=
      match cs with
      | '+' :: rest => (false, rest)
      | '-' :: rest => (true, rest)
      | _ => (false, cs)
    let (expDs, cs'') := spanDigits cs'
    if expDs.isEmpty then none
    else
      let e := digitsToNat expDs
      if negExp then some (⟨sign * (mant : Int), den0 * 10 ^ e⟩, cs'')
      else some (⟨sign * (mant : Int) * ((10 : Int) ^ e), den0⟩, cs'')

/-- Parse a JSON number (strict grammar: `-? int frac? exp?`, integer part
either `0` or starting with a nonzero digit).  Returns the exact value as a
`Decimal`. -/
def parseNumber (cs : List Char) : Option (Decimal × List Char) :=
  let (sign, cs1) : Int × List Char :=
    match cs with
    | '-' :: rest => (-1, rest)
    | _ => (1, cs)
  let (intDs, cs2) := spanDigits cs1
  match intDs with
  | [] => none
  | d0 :: drest =>
    if d0 = 0 && drest ≠ [] then none
    else
      match cs2 with
      | '.' :: rest =>
        let (fracDs, cs3) := spanDigits rest
        if fracDs.isEmpty then none
        else finishNumber sign (digitsToNat (intDs ++ fracDs)) (10 ^ fracDs.length) cs3
      | _ => finishNumber sign (digitsToNat intDs) 1 cs2

/-- Parser mode: a single value, the items of an array (after `[`), or the
members of an object (after `{`). -/
inductive PMode where
  | val
  | arrItems (first : Bool)
  | objItems (first : Bool)

/-- Parser result: a value, an element list, or a field list. -/
inductive PRes where
  | v (x : JsVal)
  | vs (xs : List JsVal)
  | fs (xs : List (String × JsVal))

/-- Fueled recursive-descent parser (structural recursion on fuel; every
recursive call spends one unit, and `jsonParse` supplies enough fuel for any
input). -/
def parseJson : Nat → PMode → List Char → Option (PRes × List Char)
  | 0, _, _ => none
  | fuel + 1, .val, cs =>
    match skipWs cs with
    | 'n' :: 'u' :: 'l' :: 'l' :: rest => some (.v .jnull, rest)
    | 't' :: 'r' :: 'u' :: 'e' :: rest => some (.v (.jbool true), rest)
    | 'f' :: 'a' :: 'l' :: 's' :: 'e' :: rest => some (.v (.jbool false), rest)
    | '"' :: rest =>
      match parseStrBody [] rest with
      | some (s, rest') => some (.v (.jstr s), rest')
      | none => none
    | '[' :: rest =>
      (match skipWs rest with
       | ']' :: rest' => some (.v (.jarr []), rest')
       | _ =>
         match parseJson fuel (.arrItems true) rest with
         | some (.vs xs, rest') => some (.v (.jarr xs), rest')
         | _ => none)
    | '\x7b' :: rest =>
      (match skipWs rest with
       | '\x7d' :: rest' => some (.v (.jobj []), rest')
       | _ =>
         match parseJson fuel (.objItems true) rest with
         | some (.fs xs, rest') => some (.v (.jobj xs), rest')
         | _ => none)
    | rest =>
      match parseNumber rest with
      | some (d, rest') => some (.v (.jnum d), rest')
      | none => none
  | fuel + 1, .arrItems _, cs =>
    (match parseJson fuel .val cs with
     | some (.v x, rest) =>
       (match skipWs rest with
        | ']' :: rest' => some (.vs [x], rest')
        | ',' :: rest' =>
          (match parseJson fuel (.arrItems false) rest' with
           | some (.vs xs, rest'') => some (.vs (x :: xs), rest'')
           | _ => none)
        | _ => none)
     | _ => none)
  | fuel + 1, .objItems _, cs =>
    (match skipWs cs with
     | '"' :: rest =>
       (match parseStrBody [] rest with
        | some (k, rest1) =>
          (match skipWs rest1 with
           | ':' :: rest2 =>
             (match parseJson fuel .val rest2 with
              | some (.v x, rest3) =>
                (match skipWs rest3 with
                 | '\x7d' :: rest4 => some (.fs [(k, x)], rest4)
                 | ',' :: rest4 =>
                   (match parseJson fuel (.objItems false) rest4 with
                    | some (.fs xs, rest5) => some (.fs ((k, x) :: xs), rest5)
                    | _ => none)
                 | _ => none)
              | _ => none)
           | _ => none)
        | none => none)
     | _ => none)

/-- Model of `JSON.parse`: parse one value, require only whitespace after it;
`none` models a thrown `SyntaxError`. -/
def jsonParse (s : String) : Option JsVal :=
  match parseJson (2 * s.data.length + 2) .val s.data with
  | some (.v x, rest) => if (skipWs rest).isEmpty then some x else none
  | _ => none

/-! ### Base64 decoding and JWT payload decoding

Models `decodeJwtPayload` from the auth provider:
```ts
const parts = token.split('.');
if (parts.length !== 3) return null;
const base64 = (parts[1] ?? '').replace(dash, '+').replace(underscore, '/');
const json = atob(base64);
return JSON.parse(json) as JwtPayload;
```
wrapped in `try { ... } catch { return null; }`.  `atob` follows the WHATWG
forgiving-base64 algorithm (strip ASCII whitespace, strip up to two trailing
`=` when the length is a multiple of four, fail on a remainder of one or on
any character outside the alphabet); a thrown `InvalidCharacterError` is the
`none` case. -/

/-- ASCII whitespace stripped by forgiving-base64. -/
def isAsciiWs (c : Char) : Bool :=
  c == ' ' || c == '\t' || c == '\n' || c == '\x0c' || c == '\r'

/-- Value of a base64 alphabet character. -/
def b64Index (c : Char) : Option Nat :=
  if 'A' ≤ c && c ≤ 'Z' then some (c.toNat - 'A'.toNat)
  else if 'a' ≤ c && c ≤ 'z' then some (c.toNat - 'a'.toNat + 26)
  else if '0' ≤ c && c ≤ '9' then some (c.toNat - '0'.toNat + 52)
  else if c == '+' then some 62
  else if c == '/' then some 63
  else none

/-- Map every character through `b64Index`, failing on the first invalid one. -/
def b64Indices : List Char → Option (List Nat)
  | [] => some []
  | c :: cs =>
    match b64Index c, b64Indices cs with
    | some i, some is => some (i :: is)
    | _, _ => none

/-- Decode sextet groups to bytes (a final group of two sextets yields one
byte, of three sextets two bytes; leftover low bits are discarded, as in
forgiving-base64). -/
def sextetsToBytes : List Nat → List Nat
  | a :: b :: c :: d :: rest =>
    (a <<< 2 ||| b >>> 4) :: ((b &&& 0xf) <<< 4 ||| c >>> 2) ::
      ((c &&& 0x3) <<< 6 ||| d) :: sextetsToBytes rest
  | [a, b] => [a <<< 2 ||| b >>> 4]
  | [a, b, c] => [a <<< 2 ||| b >>> 4, (b &&& 0xf) <<< 4 ||| c >>> 2]
  | _ => []

/-- Strip at most two trailing `=` characters. -/
def stripPad (cs : List Char) : List Char :=
  match cs.reverse with
  | '=' :: '=' :: rest => rest.reverse
  | '=' :: rest => rest.reverse
  | _ => cs

/-- Model of `window.atob` (forgiving-base64 decode to a latin-1 string whose
characters are the decoded bytes). -/
def atob (s : String) : Option String :=
  let cs := s.data.filter (fun c => !isAsciiWs c)
  let cs := if cs.length % 4 == 0 then stripPad cs else cs
  if cs.length % 4 == 1 then none
  else
    match b64Indices cs with
    | some is => some ⟨(sextetsToBytes is).map Char.ofNat⟩
    | none => none

/-- Base64url to base64: the source's two global `String.replace` calls
mapping every dash to `+` and every underscore to `/`. -/
def b64urlToStd (s : String) : String :=
  ⟨s.data.map (fun c => if c == '-' then '+' else if c == '_' then '/' else c)⟩

/-- Splitter for `token.split('.')` (JS semantics: `""` splits to `[""]`,
adjacent dots produce empty segments). -/
def splitDotAux (cur : List Char) : List Char → List (List Char)
  | [] => [cur.reverse]
  | c :: cs =>
    if c == '.' then cur.reverse :: splitDotAux [] cs
    else splitDotAux (c :: cur) cs

/-- Model of `token.split('.')`. -/
def splitDot (s : String) : List String :=
  (splitDotAux [] s.data).map fun cs => ⟨cs⟩

/-- Decoding of the payload segment: base64url to base64, `atob`,
`JSON.parse`; `none` when either step throws. -/
def decodePayload (seg : String) : Option JsVal :=
  match atob (b64urlToStd seg) with
  | some json => jsonParse json
  | none => none

/-- Model of `decodeJwtPayload` (auth provider): split on dots, require three
segments, decode the middle segment; any failure (wrong segment count, `atob`
throw, `SyntaxError`) returns `null`, here `none`.  The unchecked TS cast
`as JwtPayload` performs no validation, so the result is an arbitrary JSON
value. -/
def decodeJwtPayload (token : String) : Option JsVal :=
  let parts := splitDot token
  if parts.length != 3 then none
  else decodePayload (parts.getD 1 "")

/-! ### Email hashing (`auditLogger.ts`: `hashEmail`)

```ts
const data = encoder.encode(email.toLowerCase().trim());
const hashBuffer = await crypto.subtle.digest('SHA-256', data);
const hashArray = Array.from(new Uint8Array(hashBuffer));
return hashArray.map((b) => b.toString(16).padStart(2, '0')).join('');
```
`crypto.subtle.digest('SHA-256', ...)` is a platform primitive; it is embedded
as an executable FIPS 180-4 SHA-256 over byte lists.  `toLowerCase`/`trim`
are modelled on their ASCII behaviour (the modelled e-mail domain); machine
words are `Nat` reduced mod `2^32` where overflow matters. -/

/-- ASCII case folding for `email.toLowerCase()` (JS folds the full Unicode
case mapping; inputs in the modelled domain are ASCII). -/
def jsToLower (s : String) : String :=
  ⟨s.data.map fun c =>
    if 'A' ≤ c && c ≤ 'Z' then Char.ofNat (c.toNat + 32) else c⟩

/-- Whitespace removed by `String.prototype.trim` (ASCII subset of the JS
WhiteSpace/LineTerminator productions). -/
def isTrimWs (c : Char) : Bool :=
  c == ' ' || c == '\t' || c == '\n' || c == '\x0b' || c == '\x0c' || c == '\r'

/-- Model of `.trim()`: drop leading and trailing whitespace. -/
def jsTrim (s : String) : String :=
  ⟨((s.data.dropWhile isTrimWs).reverse.dropWhile isTrimWs).reverse⟩

/-- Normalisation applied before hashing: `email.toLowerCase().trim()`. -/
def normalizeEmail (email : String) : String :=
  jsTrim (jsToLower email)

/-- UTF-8 encoding of one scalar value (`TextEncoder.prototype.encode`). -/
def utf8EncodeChar (c : Char) : List Nat :=
  let n := c.toNat
  if n < 0x80 then [n]
  else if n < 0x800 then [0xc0 ||| n >>> 6, 0x80 ||| (n &&& 0x3f)]
  else if n < 0x10000 then
    [0xe0 ||| n >>> 12, 0x80 ||| ((n >>> 6) &&& 0x3f), 0x80 ||| (n &&& 0x3f)]
  else
    [0xf0 ||| n >>> 18, 0x80 ||| ((n >>> 12) &&& 0x3f),
     0x80 ||| ((n >>> 6) &&& 0x3f), 0x80 ||| (n &&& 0x3f)]

/-- UTF-8 encoding of a string to bytes. -/
def utf8Encode (s : String) : List Nat :=
  s.data.flatMap utf8EncodeChar

/-- Truncate to a 32-bit word. -/
def w32 (n : Nat) : Nat := n % 4294967296

/-- Rotate the 32-bit word `x` right by `k` bit positions. -/
def rotr (k x : Nat) : Nat := w32 ((x >>> k) ||| (x <<< (32 - k)))

/-- Bitwise complement within 32 bits. -/
def bnot32 (x : Nat) : Nat := x ^^^ 0xffffffff

/-- SHA-256 `Ch` function. -/
def shaCh (e f g : Nat) : Nat := (e &&& f) ^^^ (bnot32 e &&& g)

/-- SHA-256 `Maj` function. -/
def shaMaj (a b c : Nat) : Nat := (a &&& b) ^^^ (a &&& c) ^^^ (b &&& c)

/-- SHA-256 big sigma-0. -/
def bigSigma0 (x : Nat) : Nat := rotr 2 x ^^^ rotr 13 x ^^^ rotr 22 x

/-- SHA-256 big sigma-1. -/
def bigSigma1 (x : Nat) : Nat := rotr 6 x ^^^ rotr 11 x ^^^ rotr 25 x

/-- SHA-256 small sigma-0. -/
def smallSigma0 (x : Nat) : Nat := rotr 7 x ^^^ rotr 18 x ^^^ (x >>> 3)

/-- SHA-256 small sigma-1. -/
def smallSigma1 (x : Nat) : Nat := rotr 17 x ^^^ rotr 19 x ^^^ (x >>> 10)

/-- SHA-256 round constants. -/
def shaK : List Nat :=
  [1116352408, 1899447441, 3049323471, 3921009573, 961987163,
   1508970993, 2453635748, 2870763221, 3624381080, 310598401,
   607225278, 1426881987, 1925078388, 2162078206, 2614888103,
   3248222580, 3835390401, 4022224774, 264347078, 604807628,
   770255983, 1249150122, 1555081692, 1996064986, 2554220882,
   2821834349, 2952996808, 3210313671, 3336571891, 3584528711,
   113926993, 338241895, 666307205, 773529912, 1294757372,
   1396182291, 1695183700, 1986661051, 2177026350, 2456956037,
   2730485921, 2820302411, 3259730800, 3345764771, 3516065817,
   3600352804, 4094571909, 275423344, 430227734, 506948616,
   659060556, 883997877, 958139571, 1322822218, 1537002063,
   1747873779, 1955562222, 2024104815, 2227730452, 2361852424,
   2428436474, 2756734187, 3204031479, 3329325298]

/-- Working state of the compression function (eight 32-bit words). -/
structure Hash8 where
  a : Nat
  b : Nat
  c : Nat
  d : Nat
  e : Nat
  f : Nat
  g : Nat
  h : Nat

/-- SHA-256 initial hash value. -/
def shaH0 : Hash8 :=
  ⟨1779033703, 3144134277, 1013904242, 2773480762,
   1359893119, 2600822924, 528734635, 1541459225⟩

/-- Big-endian 8-byte serialisation of the message bit length. -/
def beBytes8 (n : Nat) : List Nat :=
  [n >>> 56 &&& 0xff, n >>> 48 &&& 0xff, n >>> 40 &&& 0xff, n >>> 32 &&& 0xff,
   n >>> 24 &&& 0xff, n >>> 16 &&& 0xff, n >>> 8 &&& 0xff, n &&& 0xff]

/-- SHA-256 padding: `0x80`, zeros to 56 mod 64, then the 64-bit bit length. -/
def padMsg (bytes : List Nat) : List Nat :=
  let len := bytes.length
  let zeros := (119 - len % 64) % 64
  bytes ++ [0x80] ++ List.replicate zeros 0 ++ beBytes8 (8 * len)

/-- Split a byte list into 64-byte blocks (fuel = list length bounds the
number of blocks). -/
def chunks64 : Nat → List Nat → List (List Nat)
  | 0, _ => []
  | _ + 1, [] => []
  | fuel + 1, l => l.take 64 :: chunks64 fuel (l.drop 64)

/-- Pack bytes into big-endian 32-bit words. -/
def toWords : List Nat → List Nat
  | a :: b :: c :: d :: rest => (a <<< 24 ||| b <<< 16 ||| c <<< 8 ||| d) :: toWords rest
  | _ => []

/-- Extend 16 message words to 64 (each step appends one scheduled word). -/
def scheduleW : Nat → List Nat → List Nat
  | 0, w => w
  | fuel + 1, w =>
    scheduleW fuel (w ++ [w32 (smallSigma1 (w.getD (w.length - 2) 0) +
      w.getD (w.length - 7) 0 + smallSigma0 (w.getD (w.length - 15) 0) +
      w.getD (w.length - 16) 0)])

/-- One chain of compression rounds over the round constants and schedule. -/
def compressRounds : List Nat → List Nat → Hash8 → Hash8
  | k :: ks, wv :: ws, st =>
    let t1 := w32 (st.h + bigSigma1 st.e + shaCh st.e st.f st.g + k + wv)
    let t2 := w32 (bigSigma0 st.a + shaMaj st.a st.b st.c)
    compressRounds ks ws
      ⟨w32 (t1 + t2), st.a, st.b, st.c, w32 (st.d + t1), st.e, st.f, st.g⟩
  | _, _, st => st

/-- Process one 512-bit block. -/
def processBlock (st : Hash8) (block : List Nat) : Hash8 :=
  let ws := scheduleW 48 (toWords block)
  let r := compressRounds shaK ws st
  ⟨w32 (st.a + r.a), w32 (st.b + r.b), w32 (st.c + r.c), w32 (st.d + r.d),
   w32 (st.e + r.e), w32 (st.f + r.f), w32 (st.g + r.g), w32 (st.h + r.h)⟩

/-- Big-endian serialisation of the final state to 32 bytes. -/
def digestBytes (d : Hash8) : List Nat :=
  [d.a >>> 24 &&& 0xff, d.a >>> 16 &&& 0xff, d.a >>> 8 &&& 0xff, d.a &&& 0xff,
   d.b >>> 24 &&& 0xff, d.b >>> 16 &&& 0xff, d.b >>> 8 &&& 0xff, d.b &&& 0xff,
   d.c >>> 24 &&& 0xff, d.c >>> 16 &&& 0xff, d.c >>> 8 &&& 0xff, d.c &&& 0xff,
   d.d >>> 24 &&& 0xff, d.d >>> 16 &&& 0xff, d.d >>> 8 &&& 0xff, d.d &&& 0xff,
   d.e >>> 24 &&& 0xff, d.e >>> 16 &&& 0xff, d.e >>> 8 &&& 0xff, d.e &&& 0xff,
   d.f >>> 24 &&& 0xff, d.f >>> 16 &&& 0xff, d.f >>> 8 &&& 0xff, d.f &&& 0xff,
   d.g >>> 24 &&& 0xff, d.g >>> 16 &&& 0xff, d.g >>> 8 &&& 0xff, d.g &&& 0xff,
   d.h >>> 24 &&& 0xff, d.h >>> 16 &&& 0xff, d.h >>> 8 &&& 0xff, d.h &&& 0xff]

/-- SHA-256 of a byte list, as 32 bytes. -/
def sha256 (bytes : List Nat) : List Nat :=
  let padded := padMsg bytes
  digestBytes ((chunks64 padded.length padded).foldl processBlock shaH0)

/-- Lower-case hex digit for a nibble (the digit alphabet of
`b.toString(16)`; only nibble values `0..15` occur). -/
def hexDigitChar (n : Nat) : Char :=
  "0123456789abcdef".data.getD n 'f'

/-- Two-digit lower-case hex of a byte. -/
def byteToHex (b : Nat) : List Char :=
  [hexDigitChar (b / 16 % 16), hexDigitChar (b % 16)]

/-- Hex string of a byte list (the `map`/`padStart`/`join` chain). -/
def bytesToHex (bytes : List Nat) : String :=
  ⟨bytes.flatMap byteToHex⟩

/-- Model of `hashEmail`: hex SHA-256 digest of the UTF-8 bytes of the
lower-cased, trimmed e-mail. -/
def hashEmail (email : String) : String :=
  bytesToHex (sha256 (utf8Encode (normalizeEmail email)))

/-! ### Audit events (`auditLogger.ts`)

Module state of the audit logger: the attributed subject (`currentUserId`),
the session identifier and the event queue.  `crypto.randomUUID()` values are
opaque; session identifiers are modelled by a generation counter that
`resetSession` bumps, and the never-rotated correlation id by the constant
`0`.  Event timestamps are the clock value at construction. -/

/-- Audit action enumeration (`types/audit.ts`). -/
inductive AuditAction where
  | login
  | login_failed
  | logout
  | review_submitted
  | admin_page_access
  | unauthorized_access_attempt
  | token_refresh
  | search_performed
  deriving DecidableEq

/-- Audit event record (`buildEvent` output). -/
structure AuditEvent where
  timestamp : Int
  sessionGen : Nat
  userId : JsVal
  action : AuditAction
  target : Option String
  metadata : List (String × JsVal)
  correlationId : Nat

/-- Model of `buildEvent(action, target, metadata)` at clock `now` with the
logger's current session generation and attributed subject. -/
def buildEvent (now : Int) (gen : Nat) (uid : JsVal) (action : AuditAction)
    (target : Option String) (metadata : List (String × JsVal)) : AuditEvent :=
  ⟨now, gen, uid, action, target, metadata, 0⟩

/-! ### Session core state machine (`AuthProvider`)

React state (`token`, `user`), the refresh-timer ref and the audit logger's
module state are combined into one explicit state record.  The timer system
is modelled operationally: `setTimeout` appends a fresh timer handle to
`armedTimers` and stores its id in `refreshTimerRef`; `clearTimeout` removes
the referenced handle.  `armedTimers` is therefore the set of scheduled
refresh callbacks that may still fire. -/

/-- Decoded user shape (`jwtToAuthUser` output).  The TS cast `as JwtPayload`
does not validate, so each field is whatever JS value property access
produced. -/
structure AuthUser where
  id : JsVal
  email : JsVal
  role : JsVal
  displayName : JsVal

/-- Model of `jwtToAuthUser`. -/
def jwtToAuthUser (payload : JsVal) : AuthUser :=
  ⟨payload.getProp "sub", payload.getProp "email",
   payload.getProp "role", payload.getProp "displayName"⟩

/-- A scheduled refresh callback: `setTimeout` handle id and delay in
milliseconds. -/
structure RefreshTimer where
  id : Nat
  delayMs : Decimal

/-- Combined session-core and audit-logger state. -/
structure AuthState where
  token : Option String
  user : Option AuthUser
  refreshTimerRef : Option Nat
  armedTimers : List RefreshTimer
  nextTimerId : Nat
  auditUserId : JsVal
  auditSessionGen : Nat
  auditQueue : List AuditEvent

/-- State at provider mount: unauthenticated, no timer, logger attributes no
subject and holds an empty queue. -/
def initAuthState : AuthState :=
  ⟨none, none, none, [], 0, .jnull, 0, []⟩

/-- Enqueue one audit event built from the logger's current state
(the `eventQueue.push(buildEvent(...))` pattern). -/
def pushEvent (now : Int) (action : AuditAction) (target : Option String)
    (metadata : List (String × JsVal)) (s : AuthState) : AuthState :=
  { s with auditQueue :=
      s.auditQueue ++ [buildEvent now s.auditSessionGen s.auditUserId action target metadata] }

/-- Model of `clearRefreshTimer`: if a handle is stored, `clearTimeout` it
(remove it from the scheduled set) and null the ref. -/
def clearRefreshTimer (s : AuthState) : AuthState :=
  match s.refreshTimerRef with
  | none => s
  | some tid =>
    { s with refreshTimerRef := none,
             armedTimers := s.armedTimers.filter (fun t => t.id != tid) }

/-- Model of `refreshTimerRef.current = setTimeout(..., delayMs)`. -/
def armTimer (delayMs : Decimal) (s : AuthState) : AuthState :=
  { s with refreshTimerRef := some s.nextTimerId,
           armedTimers := s.armedTimers ++ [⟨s.nextTimerId, delayMs⟩],
           nextTimerId := s.nextTimerId + 1 }

/-- Model of `applyToken(accessToken)` at clock `now` (seconds, the source's
`Math.floor(Date.now() / 1000)`): decode, bail out on `null`/falsy payload,
set token+user, attribute the audit subject, compute
`payload.exp - nowSeconds - REFRESH_BUFFER_SECONDS` (60), cancel any existing
timer, and arm a new one iff the remainder is positive. -/
def applyToken (now : Int) (accessToken : String) (s : AuthState) : AuthState :=
  match decodeJwtPayload accessToken with
  | none => s
  | some payload =>
    if payload.truthy then
      let authUser := jwtToAuthUser payload
      let s1 := { s with token := some accessToken, user := some authUser,
                         auditUserId := authUser.id }
      let secondsUntilRefresh :=
        (payload.getProp "exp").toNumber.map fun x => (x.subInt now).subInt 60
      let s2 := clearRefreshTimer s1
      match secondsUntilRefresh with
      | some d => if d.isPos then armTimer (d.mulNat 1000) s2 else s2
      | none => s2
    else s

/-- `applyToken` as called on a parsed response field: a non-string argument
makes `token.split` throw inside `decodeJwtPayload`'s `try`, which returns
`null`, so `applyToken` is a no-op. -/
def applyTokenJs (now : Int) (v : JsVal) (s : AuthState) : AuthState :=
  match v with
  | .jstr t => applyToken now t s
  | _ => s

/-- Session teardown shared by the non-OK and network-error branches of
`silentRefresh`: clear token, user, audit subject, and cancel the timer. -/
def refreshClearSession (s : AuthState) : AuthState :=
  clearRefreshTimer { s with token := none, user := none, auditUserId := .jnull }

/-- Model of `silentRefresh` receiving an OK response with body `bodyText`:
`response.json()` then `applyToken(data.accessToken)` then
`auditLogger.logTokenRefresh()`.  A `json()` rejection lands in the outer
`catch`, which clears the session. -/
def silentRefreshOk (now : Int) (bodyText : String) (s : AuthState) : AuthState :=
  match jsonParse bodyText with
  | none => refreshClearSession s
  | some data =>
    pushEvent now .token_refresh none []
      (applyTokenJs now (data.getProp "accessToken") s)

/-- Model of `silentRefresh` receiving a non-OK response or a network error:
clear the session. -/
def silentRefreshFail (s : AuthState) : AuthState :=
  refreshClearSession s

/-- An HTTP response as observed by the modelled client code. -/
structure HttpResponse where
  status : Int
  bodyText : String

/-- `Response.ok`: status in the inclusive range 200–299. -/
def respOk (r : HttpResponse) : Bool :=
  200 ≤ r.status && r.status ≤ 299

/-- Model of `login(email, password)` against response `resp`: on non-OK,
enqueue a `login_failed` event with the hashed e-mail and throw the fixed
`'Invalid email or password'`; on OK, parse the body, apply the token and
enqueue a `login` event.  The password is sent, never logged. -/
def loginStep (now : Int) (email _password : String) (resp : HttpResponse)
    (s : AuthState) : AuthState × Except String Unit :=
  if !respOk resp then
    (pushEvent now .login_failed none [("emailHash", .jstr (hashEmail email))] s,
     .error "Invalid email or password")
  else
    match jsonParse resp.bodyText with
    | none => (s, .error "SyntaxError: response body is not valid JSON")
    | some data =>
      (pushEvent now .login none [("emailHash", .jstr (hashEmail email))]
        (applyTokenJs now (data.getProp "accessToken") s), .ok ())

/-- Prefix of `logout()` executed before the network notification:
`auditLogger.logLogout()` then `clearRefreshTimer()`. -/
def logoutBeforeNotify (now : Int) (s : AuthState) : AuthState :=
  clearRefreshTimer (pushEvent now .logout none [] s)

/-- Suffix of `logout()` executed after the best-effort notification:
`setToken(null)`, `setUser(null)`, `auditLogger.setUser(null)`,
`auditLogger.resetSession()` (fresh session id, subject nulled). -/
def logoutFinish (s : AuthState) : AuthState :=
  { s with token := none, user := none, auditUserId := .jnull,
           auditSessionGen := s.auditSessionGen + 1 }

/-- Model of `logout()`.  The server notification is best-effort: its outcome
`serverNotifyOk` is not consulted (`catch` swallows failures and the response
is unused). -/
def logoutStep (now : Int) (_serverNotifyOk : Bool) (s : AuthState) : AuthState :=
  logoutFinish (logoutBeforeNotify now s)

/-- Role enumeration (`types/user.ts`). -/
inductive UserRole where
  | viewer
  | reviewer
  | admin
  deriving DecidableEq

/-- JS strict equality `v === 'lit'` between an arbitrary value and a string
literal. -/
def jsStrEq (v : JsVal) (lit : String) : Bool :=
  match v with
  | .jstr s => s == lit
  | _ => false

/-- Model of `hasRole(role)`: false when no user; `viewer` always true;
`reviewer` true for role `reviewer` or `admin`; otherwise the `admin`
comparison. -/
def hasRole (s : AuthState) (role : UserRole) : Bool :=
  match s.user with
  | none => false
  | some u =>
    match role with
    | .viewer => true
    | .reviewer => jsStrEq u.role "reviewer" || jsStrEq u.role "admin"
    | .admin => jsStrEq u.role "admin"

/-- The context value `isAuthenticated: token !== null && user !== null`. -/
def isAuthenticated (s : AuthState) : Bool :=
  s.token.isSome && s.user.isSome

/-- Role of the current claims, as the UX reads it (`user.role`), `undefined`
when unauthenticated. -/
def roleOf (s : AuthState) : JsVal :=
  match s.user with
  | some u => u.role
  | none => .undefined

/-- Outcome of the `silentRefresh` call made by a firing timer. -/
inductive RefreshOutcome where
  | ok (bodyText : String) (now : Int)
  | fail

/-- An armed refresh timer fires: its callback leaves the scheduled set and
runs `silentRefresh` (the stale handle id stays in `refreshTimerRef`, as the
source never nulls it on fire; `clearTimeout` on a fired handle is a no-op). -/
def fireTimerStep (outcome : RefreshOutcome) (s : AuthState) : AuthState :=
  match s.armedTimers with
  | [] => s
  | _ :: rest =>
    let s1 := { s with armedTimers := rest }
    match outcome with
    | .ok bodyText now => silentRefreshOk now bodyText s1
    | .fail => silentRefreshFail s1

/-- Session-lifecycle events: every code path of the provider that mutates
session or timer state. -/
inductive AuthStep where
  | applyTok (tok : String) (now : Int)
  | refreshOk (bodyText : String) (now : Int)
  | refreshFail
  | doLogin (email password : String) (resp : HttpResponse) (now : Int)
  | doLogout (now : Int) (serverNotifyOk : Bool)
  | fireTimer (outcome : RefreshOutcome)

/-- Transition function of the session state machine. -/
def authStep (s : AuthState) : AuthStep → AuthState
  | .applyTok tok now => applyToken now tok s
  | .refreshOk bodyText now => silentRefreshOk now bodyText s
  | .refreshFail => silentRefreshFail s
  | .doLogin email pw resp now => (loginStep now email pw resp s).1
  | .doLogout now ok => logoutStep now ok s
  | .fireTimer outcome => fireTimerStep outcome s

/-- States reachable from provider mount. -/
inductive Reachable : AuthState → Prop where
  | init : Reachable initAuthState
  | step (s : AuthState) (st : AuthStep) : Reachable s → Reachable (authStep s st)

/-- Timer discipline: at most one scheduled refresh callback, and when one
exists the ref points at it. -/
def timerInv (s : AuthState) : Prop :=
  s.armedTimers = [] ∨
    ∃ t, s.armedTimers = [t] ∧ s.refreshTimerRef = some t.id

/-- Token/claims coupling: both absent or both present. -/
def pairInv (s : AuthState) : Prop :=
  s.token = none ↔ s.user = none

/-! ### API client response handling (`apiClient.ts`: `apiFetch`)

The request-building half of `apiFetch` (headers, CSRF, timeout) has no
bearing on the claims below; modelled here is the response-status
interception that runs once the single `fetch` has resolved.  `ApiEffects`
records the externally observable effects: how many network requests were
made, how often the injected logout handler ran, which
`window.location.href` assignments happened, and which toasts were shown. -/

/-- Observable side effects of one `apiFetch` call. -/
structure ApiEffects where
  fetches : Nat
  logoutCalls : Nat
  redirects : List String
  toasts : List String
  deriving DecidableEq

/-- Result of one `apiFetch` call: resolved JSON body, empty 204 resolution,
a thrown plain `Error` with its message, or a thrown `ApiError` carrying the
status and the body-derived message. -/
inductive ApiResult where
  | success (body : JsVal)
  | noContent
  | thrown (message : String)
  | apiError (status : Int) (message : JsVal)

/-- Response-status handling of `apiFetch`: 401 → logout handler + redirect
to `/login` + fixed session-expired throw; 403 → redirect to `/unauthorized`
+ fixed throw; ≥500 → fixed toast + fixed throw; other non-OK → `ApiError`
with the body's `message` field when present (`?? 'Request failed'`); 204 →
empty resolution; otherwise the parsed JSON body. -/
def apiFetchRespond (resp : HttpResponse) : ApiEffects × ApiResult :=
  let eff : ApiEffects := ⟨1, 0, [], []⟩
  if resp.status = 401 then
    ({ eff with logoutCalls := 1, redirects := ["/login"] },
     .thrown "Session expired. Please log in again.")
  else if resp.status = 403 then
    ({ eff with redirects := ["/unauthorized"] }, .thrown "Access denied.")
  else if 500 ≤ resp.status then
    ({ eff with toasts := ["Something went wrong. Please try again later."] },
     .thrown "Server error.")
  else if !(200 ≤ resp.status && resp.status ≤ 299) then
    let body := (jsonParse resp.bodyText).getD (.jobj [])
    let msg :=
      match body.getProp "message" with
      | .undefined => .jstr "Request failed"
      | .jnull => .jstr "Request failed"
      | v => v
    (eff, .apiError resp.status msg)
  else if resp.status = 204 then (eff, .noContent)
  else
    match jsonParse resp.bodyText with
    | some v => (eff, .success v)
    | none => (eff, .thrown "SyntaxError: response body is not valid JSON")

/-! ### Audit logger enqueue operations, at call granularity

Each public enqueue operation of `auditLogger` becomes a micro-step trace:
`awaitDigest` marks the suspension at `await hashEmail(email)` (the
`crypto.subtle.digest` promise), `enqueue` the synchronous
`eventQueue.push`.  An operation completes synchronously exactly when its
trace has no suspension. -/

/-- The eight public enqueue operations. -/
inductive AuditOp where
  | logLogin (email : String)
  | logLoginFailed (email : String)
  | logLogout
  | logReviewSubmitted (movieId : String)
  | logAdminPageAccess (page : String)
  | logUnauthorizedAccess (attemptedPath : String)
  | logTokenRefresh
  | logSearch (term : String)

/-- The single event each operation constructs (`logSearch` stores only the
term length; the login operations store only the e-mail digest). -/
def auditOpEvent (op : AuditOp) (now : Int) (gen : Nat) (uid : JsVal) : AuditEvent :=
  match op with
  | .logLogin e => buildEvent now gen uid .login none [("emailHash", .jstr (hashEmail e))]
  | .logLoginFailed e =>
    buildEvent now gen uid .login_failed none [("emailHash", .jstr (hashEmail e))]
  | .logLogout => buildEvent now gen uid .logout none []
  | .logReviewSubmitted m => buildEvent now gen uid .review_submitted (some m) []
  | .logAdminPageAccess p => buildEvent now gen uid .admin_page_access (some p) []
  | .logUnauthorizedAccess p =>
    buildEvent now gen uid .unauthorized_access_attempt (some p) []
  | .logTokenRefresh => buildEvent now gen uid .token_refresh none []
  | .logSearch t =>
    buildEvent now gen uid .search_performed none
      [("termLength", .jnum ⟨(t.length : Int), 1⟩)]

/-- One atomic step of an enqueue operation. -/
inductive MicroStep where
  | awaitDigest
  | enqueue (ev : AuditEvent)

/-- Micro-step trace of each operation: `logLogin` and `logLoginFailed` are
`async` and first `await` the e-mail digest; the six others push
immediately. -/
def auditOpTrace (op : AuditOp) (now : Int) (gen : Nat) (uid : JsVal) :
    List MicroStep :=
  match op with
  | .logLogin _ => [.awaitDigest, .enqueue (auditOpEvent op now gen uid)]
  | .logLoginFailed _ => [.awaitDigest, .enqueue (auditOpEvent op now gen uid)]
  | _ => [.enqueue (auditOpEvent op now gen uid)]

/-- Run a trace against the queue: enqueue steps append, suspensions do not
touch the queue. -/
def applyTrace (q : List AuditEvent) : List MicroStep → List AuditEvent
  | [] => q
  | .awaitDigest :: rest => applyTrace q rest
  | .enqueue ev :: rest => applyTrace (q ++ [ev]) rest

/-- Whether a micro-step is a suspension point. -/
def MicroStep.isAwait : MicroStep → Bool
  | .awaitDigest => true
  | .enqueue _ => false

/-- An operation trace completes synchronously iff it never suspends. -/
def isSyncTrace (tr : List MicroStep) : Bool :=
  tr.all fun st => !st.isAwait

/-- The operations declared `async` in the source (they `await` the digest). -/
def AuditOp.isAsyncOp : AuditOp → Bool
  | .logLogin _ => true
  | .logLoginFailed _ => true
  | _ => false

/-! ### Basic lemmas about the state operations -/

section StateLemmas

variable (s : AuthState)

@[simp] lemma pushEvent_token (now a t m) : (pushEvent now a t m s).token = s.token := rfl

@[simp] lemma pushEvent_user (now a t m) : (pushEvent now a t m s).user = s.user := rfl

@[simp] lemma pushEvent_ref (now a t m) :
    (pushEvent now a t m s).refreshTimerRef = s.refreshTimerRef := rfl

@[simp] lemma pushEvent_armed (now a t m) :
    (pushEvent now a t m s).armedTimers = s.armedTimers := rfl

@[simp] lemma pushEvent_nextId (now a t m) :
    (pushEvent now a t m s).nextTimerId = s.nextTimerId := rfl

@[simp] lemma pushEvent_gen (now a t m) :
    (pushEvent now a t m s).auditSessionGen = s.auditSessionGen := rfl

@[simp] lemma pushEvent_queue (now a t m) :
    (pushEvent now a t m s).auditQueue =
      s.auditQueue ++ [buildEvent now s.auditSessionGen s.auditUserId a t m] := rfl

@[simp] lemma clear_token : (clearRefreshTimer s).token = s.token := by
  unfold clearRefreshTimer; split <;> rfl

@[simp] lemma clear_user : (clearRefreshTimer s).user = s.user := by
  unfold clearRefreshTimer; split <;> rfl

@[simp] lemma clear_nextId : (clearRefreshTimer s).nextTimerId = s.nextTimerId := by
  unfold clearRefreshTimer; split <;> rfl

@[simp] lemma clear_auditUser : (clearRefreshTimer s).auditUserId = s.auditUserId := by
  unfold clearRefreshTimer; split <;> rfl

@[simp] lemma clear_gen : (clearRefreshTimer s).auditSessionGen = s.auditSessionGen := by
  unfold clearRefreshTimer; split <;> rfl

@[simp] lemma clear_queue : (clearRefreshTimer s).auditQueue = s.auditQueue := by
  unfold clearRefreshTimer; split <;> rfl

@[simp] lemma armTimer_token (d) : (armTimer d s).token = s.token := rfl

@[simp] lemma armTimer_user (d) : (armTimer d s).user = s.user := rfl

@[simp] lemma armTimer_queue (d) : (armTimer d s).auditQueue = s.auditQueue := rfl

@[simp] lemma armTimer_gen (d) : (armTimer d s).auditSessionGen = s.auditSessionGen := rfl

/-- Invariants depending only on the timer fields transfer across updates of
the other fields. -/
lemma timerInv_of_eq {s s' : AuthState} (h1 : s'.armedTimers = s.armedTimers)
    (h2 : s'.refreshTimerRef = s.refreshTimerRef) (h : timerInv s) : timerInv s' := by
  unfold timerInv at *
  rw [h1, h2]
  exact h

/-- After `clearRefreshTimer`, under the timer discipline, no callback is
scheduled and the ref is null. -/
lemma clear_resolves (h : timerInv s) :
    (clearRefreshTimer s).armedTimers = [] ∧ (clearRefreshTimer s).refreshTimerRef = none := by
  rcases h with h | ⟨t, harm, href⟩
  · cases href : s.refreshTimerRef with
    | none => simp [clearRefreshTimer, href, h]
    | some tid => simp [clearRefreshTimer, href, h]
  · simp [clearRefreshTimer, href, harm]

lemma timerInv_clear (h : timerInv s) : timerInv (clearRefreshTimer s) :=
  Or.inl (clear_resolves s h).1

lemma timerInv_arm {s : AuthState} (d) (h : s.armedTimers = []) :
    timerInv (armTimer d s) :=
  Or.inr ⟨⟨s.nextTimerId, d⟩, by simp [armTimer, h], rfl⟩

lemma timerInv_pushEvent (now a t m) (h : timerInv s) :
    timerInv (pushEvent now a t m s) :=
  timerInv_of_eq (pushEvent_armed s now a t m) (pushEvent_ref s now a t m) h

end StateLemmas

/-! ### Invariant preservation across every transition -/

lemma timerInv_applyToken (now : Int) (tok : String) (s : AuthState)
    (h : timerInv s) : timerInv (applyToken now tok s) := by
  unfold applyToken
  cases hdec : decodeJwtPayload tok with
  | none => exact h
  | some payload =>
    by_cases htr : payload.truthy
    · simp only [htr, if_true]
      set s1 : AuthState :=
        { s with token := some tok, user := some (jwtToAuthUser payload),
                 auditUserId := (jwtToAuthUser payload).id } with hs1
      have h1 : timerInv s1 := timerInv_of_eq rfl rfl h
      have hc := clear_resolves s1 h1
      cases (payload.getProp "exp").toNumber.map
          (fun x => (x.subInt now).subInt 60) with
      | none => exact timerInv_clear s1 h1
      | some d =>
        by_cases hp : d.isPos
        · simp only [hp, if_true]
          exact timerInv_arm _ hc.1
        · simp only [hp, if_false]
          exact timerInv_clear s1 h1
    · simp only [htr, if_false]
      exact h

lemma timerInv_applyTokenJs (now : Int) (v : JsVal) (s : AuthState)
    (h : timerInv s) : timerInv (applyTokenJs now v s) := by
  unfold applyTokenJs
  cases v <;> first
    | exact h
    | exact timerInv_applyToken now _ s h

lemma timerInv_refreshClear (s : AuthState) (h : timerInv s) :
    timerInv (refreshClearSession s) :=
  timerInv_clear _ (timerInv_of_eq rfl rfl h)

lemma timerInv_refreshOk (now : Int) (body : String) (s : AuthState)
    (h : timerInv s) : timerInv (silentRefreshOk now body s) := by
  unfold silentRefreshOk
  cases jsonParse body with
  | none => exact timerInv_refreshClear s h
  | some data =>
    exact timerInv_pushEvent _ now _ _ _ (timerInv_applyTokenJs now _ s h)

lemma timerInv_authStep (s : AuthState) (st : AuthStep) (h : timerInv s) :
    timerInv (authStep s st) := by
  cases st with
  | applyTok tok now => exact timerInv_applyToken now tok s h
  | refreshOk body now => exact timerInv_refreshOk now body s h
  | refreshFail => exact timerInv_refreshClear s h
  | doLogin email pw resp now =>
    simp only [authStep]
    unfold loginStep
    by_cases hok : respOk resp
    · simp only [hok, Bool.not_true, Bool.false_eq_true, if_false]
      cases jsonParse resp.bodyText with
      | none => exact h
      | some data =>
        exact timerInv_pushEvent _ now _ _ _ (timerInv_applyTokenJs now _ s h)
    · simp only [hok, Bool.not_false]
      exact timerInv_pushEvent _ now _ _ _ h
  | doLogout now ok =>
    simp only [authStep]
    unfold logoutStep logoutFinish
    exact timerInv_of_eq rfl rfl
      (timerInv_clear _ (timerInv_pushEvent _ now _ _ _ h))
  | fireTimer outcome =>
    simp only [authStep]
    unfold fireTimerStep
    cases harm : s.armedTimers with
    | nil => exact h
    | cons t rest =>
      have hrest : rest = [] := by
        rcases h with h | ⟨t', harm', _⟩
        · rw [harm] at h; cases h
        · rw [harm] at harm'
          injection harm'
      subst hrest
      have h1 : timerInv { s with armedTimers := [] } := Or.inl rfl
      cases outcome with
      | ok body now => exact timerInv_refreshOk now body _ h1
      | fail => exact timerInv_refreshClear _ h1

/-- Every reachable state obeys the timer discipline. -/
lemma timerInv_reachable {s : AuthState} (h : Reachable s) : timerInv s := by
  induction h with
  | init => exact Or.inl rfl
  | step s st _ ih => exact timerInv_authStep s st ih

/-- The token/claims pairing depends only on the `token` and `user` fields. -/
lemma pairInv_of_eq {s s' : AuthState} (h1 : s'.token = s.token)
    (h2 : s'.user = s.user) (h : pairInv s) : pairInv s' := by
  unfold pairInv at *
  rw [h1, h2]
  exact h

lemma pairInv_applyToken (now : Int) (tok : String) (s : AuthState)
    (h : pairInv s) : pairInv (applyToken now tok s) := by
  unfold applyToken
  cases hdec : decodeJwtPayload tok with
  | none => exact h
  | some payload =>
    by_cases htr : payload.truthy
    · simp only [htr, if_true]
      cases (payload.getProp "exp").toNumber.map
          (fun x => (x.subInt now).subInt 60) with
      | none => simp [pairInv]
      | some d =>
        by_cases hp : d.isPos
        · simp [hp, pairInv]
        · simp [hp, pairInv]
    · simp only [htr, if_false]
      exact h

lemma pairInv_applyTokenJs (now : Int) (v : JsVal) (s : AuthState)
    (h : pairInv s) : pairInv (applyTokenJs now v s) := by
  unfold applyTokenJs
  cases v <;> first
    | exact h
    | exact pairInv_applyToken now _ s h

lemma pairInv_refreshClear (s : AuthState) : pairInv (refreshClearSession s) := by
  unfold refreshClearSession pairInv
  simp

lemma pairInv_refreshOk (now : Int) (body : String) (s : AuthState)
    (h : pairInv s) : pairInv (silentRefreshOk now body s) := by
  unfold silentRefreshOk
  cases jsonParse body with
  | none => exact pairInv_refreshClear s
  | some data =>
    exact pairInv_of_eq (pushEvent_token _ now _ _ _) (pushEvent_user _ now _ _ _)
      (pairInv_applyTokenJs now _ s h)

lemma pairInv_authStep (s : AuthState) (st : AuthStep) (h : pairInv s) :
    pairInv (authStep s st) := by
  cases st with
  | applyTok tok now => exact pairInv_applyToken now tok s h
  | refreshOk body now => exact pairInv_refreshOk now body s h
  | refreshFail => exact pairInv_refreshClear s
  | doLogin email pw resp now =>
    simp only [authStep]
    unfold loginStep
    by_cases hok : respOk resp
    · simp only [hok, Bool.not_true, Bool.false_eq_true, if_false]
      cases jsonParse resp.bodyText with
      | none => exact h
      | some data =>
        exact pairInv_of_eq (pushEvent_token _ now _ _ _)
          (pushEvent_user _ now _ _ _) (pairInv_applyTokenJs now _ s h)
    · simp only [hok, Bool.not_false]
      exact pairInv_of_eq (pushEvent_token _ now _ _ _)
        (pushEvent_user _ now _ _ _) h
  | doLogout now ok =>
    simp only [authStep]
    unfold logoutStep logoutFinish pairInv
    simp
  | fireTimer outcome =>
    simp only [authStep]
    unfold fireTimerStep
    cases harm : s.armedTimers with
    | nil => exact h
    | cons t rest =>
      have h1 : pairInv { s with armedTimers := rest } := pairInv_of_eq rfl rfl h
      cases outcome with
      | ok body now => exact pairInv_refreshOk now body _ h1
      | fail => exact pairInv_refreshClear _

/-- Every reachable state couples token and claims. -/
lemma pairInv_reachable {s : AuthState} (h : Reachable s) : pairInv s := by
  induction h with
  | init => simp [pairInv, initAuthState]
  | step s st _ ih => exact pairInv_authStep s st ih

/-! ### Behaviour of `applyToken` on decodable and undecodable tokens -/

/-- A token that fails to decode makes `applyToken` the identity. -/
lemma applyToken_noop {tok : String} (now : Int) (s : AuthState)
    (hdec : decodeJwtPayload tok = none) : applyToken now tok s = s := by
  unfold applyToken
  rw [hdec]

/-- A decodable token whose payload is truthy and whose `exp` claim is the
number `n / d`, at clock `now`, with more than the 60-second buffer left,
arms exactly the one fresh timer with delay `(exp − now − 60) * 1000`
milliseconds. -/
lemma applyToken_arms {tok : String} {payload : JsVal} {n : Int} {d : Nat}
    (now : Int) (s : AuthState) (hinv : timerInv s)
    (hdec : decodeJwtPayload tok = some payload) (htr : payload.truthy = true)
    (hexp : payload.getProp "exp" = .jnum ⟨n, d⟩)
    (hpos : 0 < n - (now + 60) * (d : Int)) :
    (applyToken now tok s).armedTimers =
      [⟨s.nextTimerId, ⟨(n - (now + 60) * (d : Int)) * 1000, d⟩⟩] ∧
    (applyToken now tok s).refreshTimerRef = some s.nextTimerId := by
  have hring : n - now * (d : Int) - 60 * (d : Int) = n - (now + 60) * (d : Int) := by
    ring
  unfold applyToken
  rw [hdec]
  simp only [htr, if_true, hexp, JsVal.toNumber, Option.map_some',
    Decimal.subInt]
  have hposB : Decimal.isPos ⟨n - now * (d : Int) - 60 * (d : Int), d⟩ = true := by
    simp only [Decimal.isPos, decide_eq_true_eq]
    rw [hring]
    exact hpos
  simp only [hposB, if_true]
  set s1 : AuthState :=
    { s with token := some tok, user := some (jwtToAuthUser payload),
             auditUserId := (jwtToAuthUser payload).id } with hs1
  have h1 : timerInv s1 := timerInv_of_eq rfl rfl hinv
  have hc := clear_resolves s1 h1
  constructor
  · show (clearRefreshTimer s1).armedTimers ++ _ = _
    rw [hc.1, hring]
    simp [Decimal.mulNat]
  · show some (clearRefreshTimer s1).nextTimerId = _
    rw [clear_nextId]

/-- A decodable, truthy token whose remaining lifetime minus the buffer is
at or below zero cancels any existing timer and arms none. -/
lemma applyToken_no_arm {tok : String} {payload : JsVal} {n : Int} {d : Nat}
    (now : Int) (s : AuthState) (hinv : timerInv s)
    (hdec : decodeJwtPayload tok = some payload) (htr : payload.truthy = true)
    (hexp : payload.getProp "exp" = .jnum ⟨n, d⟩)
    (hneg : n - (now + 60) * (d : Int) ≤ 0) :
    (applyToken now tok s).armedTimers = [] ∧
    (applyToken now tok s).refreshTimerRef = none := by
  unfold applyToken
  rw [hdec]
  simp only [htr, if_true, hexp, JsVal.toNumber, Option.map_some',
    Decimal.subInt]
  have hring : n - now * (d : Int) - 60 * (d : Int) = n - (now + 60) * (d : Int) := by
    ring
  have hposB : Decimal.isPos ⟨n - now * (d : Int) - 60 * (d : Int), d⟩ = false := by
    simp only [Decimal.isPos, decide_eq_false_iff_not, not_lt]
    rw [hring]
    exact hneg
  simp only [hposB, if_false]
  exact clear_resolves _ (timerInv_of_eq rfl rfl hinv)

/-! ### Decode failure characterisation and no-op refresh -/

/-- A token that does not split into exactly three dot-separated segments
decodes to `null`. -/
lemma decode_none_of_parts {tok : String} (h : (splitDot tok).length ≠ 3) :
    decodeJwtPayload tok = none := by
  unfold decodeJwtPayload
  simp only [bne_iff_ne, ne_eq, h, not_false_eq_true, if_true]

/-- A three-segment token whose payload segment fails to decode to JSON
decodes to `null`. -/
lemma decode_none_of_payload {tok : String} (h3 : (splitDot tok).length = 3)
    (hbad : decodePayload ((splitDot tok).getD 1 "") = none) :
    decodeJwtPayload tok = none := by
  unfold decodeJwtPayload
  simp only [h3, bne_self_eq_false, if_false]
  exact hbad

/-- An OK refresh response with parseable JSON body whose `accessToken` is a
string that fails to decode: the session fields are untouched and exactly one
`token_refresh` event is appended. -/
lemma silentRefreshOk_noTransition {body : String} {data : JsVal} {tok : String}
    (now : Int) (s : AuthState) (hparse : jsonParse body = some data)
    (hprop : data.getProp "accessToken" = .jstr tok)
    (hdec : decodeJwtPayload tok = none) :
    silentRefreshOk now body s =
      { s with auditQueue := s.auditQueue ++
          [buildEvent now s.auditSessionGen s.auditUserId .token_refresh none []] } := by
  unfold silentRefreshOk
  rw [hparse]
  show pushEvent now .token_refresh none [] (applyTokenJs now (data.getProp "accessToken") s) = _
  rw [hprop]
  show pushEvent now .token_refresh none [] (applyToken now tok s) = _
  rw [applyToken_noop now s hdec]
  rfl

/-! ### Digest shape lemmas -/

/-- Every hex digit character is drawn from the hex alphabet. -/
lemma hexDigitChar_mem (n : Nat) : hexDigitChar n ∈ "0123456789abcdef".data := by
  unfold hexDigitChar
  rcases Nat.lt_or_ge n 16 with h | h
  · rw [List.getD_eq_getElem _ _ (by simpa using h)]
    exact List.getElem_mem _
  · rw [List.getD_eq_default _ _ (by simpa using h)]
    decide

/-- Both characters of a byte's hex form are hex digits. -/
lemma byteToHex_mem {c : Char} {b : Nat} (h : c ∈ byteToHex b) :
    c ∈ "0123456789abcdef".data := by
  simp only [byteToHex, List.mem_cons, List.not_mem_nil, or_false] at h
  rcases h with h | h <;> exact h ▸ hexDigitChar_mem _

lemma flatMap_byteToHex_length (l : List Nat) :
    (l.flatMap byteToHex).length = 2 * l.length := by
  induction l with
  | nil => rfl
  | cons a l ih =>
    simp only [List.flatMap_cons, List.length_append, ih, byteToHex,
      List.length_cons, List.length_nil, List.length_cons]
    omega

/-- The digest serialisation always has 32 bytes. -/
lemma sha256_length (bytes : List Nat) : (sha256 bytes).length = 32 := rfl

/-- The e-mail digest is always 64 characters long. -/
lemma hashEmail_length (email : String) : (hashEmail email).length = 64 := by
  show ((sha256 (utf8Encode (normalizeEmail email))).flatMap byteToHex).length = 64
  rw [flatMap_byteToHex_length, sha256_length]

/-- The e-mail digest is hexadecimal. -/
lemma hashEmail_hex (email : String) :
    ∀ c ∈ (hashEmail email).data, c ∈ "0123456789abcdef".data := by
  intro c hc
  have hdata : (hashEmail email).data =
      (sha256 (utf8Encode (normalizeEmail email))).flatMap byteToHex := rfl
  rw [hdata, List.mem_flatMap] at hc
  obtain ⟨b, _, hb⟩ := hc
  exact byteToHex_mem hb

/-- The digest depends only on the normalised e-mail. -/
lemma hashEmail_congr {e1 e2 : String} (h : normalizeEmail e1 = normalizeEmail e2) :
    hashEmail e1 = hashEmail e2 := by
  unfold hashEmail
  rw [h]

/-! ### Concrete data for evaluating the model

`tokenAdmin` is a structurally valid JWT whose payload segment is the
base64url encoding of
`{"sub":"u1","email":"e@x.io","role":"admin","displayName":"U","iat":0,"exp":1000}`;
`payloadAdmin` is the JSON value it decodes to. -/

def tokenAdmin : String :=
  "a.eyJzdWIiOiJ1MSIsImVtYWlsIjoiZUB4LmlvIiwicm9sZSI6ImFkbWluIiwiZGlzcGxheU5hbWUiOiJVIiwiaWF0IjowLCJleHAiOjEwMDB9.b"

def payloadAdmin : JsVal :=
  .jobj [("sub", .jstr "u1"), ("email", .jstr "e@x.io"), ("role", .jstr "admin"),
         ("displayName", .jstr "U"), ("iat", .jnum ⟨0, 1⟩), ("exp", .jnum ⟨1000, 1⟩)]

/-- The state reached by applying `tokenAdmin` at clock 0 to a fresh mount. -/
def authedState : AuthState :=
  authStep initAuthState (.applyTok tokenAdmin 0)

set_option maxRecDepth 1000000

/-! ### Claim theorems -/

/-- C1.  For every valid token applied whose expiry lies more than 60 seconds
in the future, `applyToken` arms exactly one one-shot refresh timer with
delay equal to `(expiry − now − 60 s)` (in milliseconds), always cancelling
any previously armed timer first, so at most one refresh timer is armed per
session at any time; if the remaining time minus the 60-second buffer is at
or below zero, no timer is armed. -/
theorem c1_refresh_timer_discipline :
    (∀ s : AuthState, Reachable s → s.armedTimers.length ≤ 1) ∧
    (∀ (s : AuthState) (now : Int) (tok : String) (payload : JsVal)
        (n : Int) (d : Nat),
      timerInv s → decodeJwtPayload tok = some payload →
      payload.truthy = true → payload.getProp "exp" = JsVal.jnum ⟨n, d⟩ →
      ((0 < n - (now + 60) * (d : Int) →
        (applyToken now tok s).armedTimers =
          [⟨s.nextTimerId, ⟨(n - (now + 60) * (d : Int)) * 1000, d⟩⟩] ∧
        (applyToken now tok s).refreshTimerRef = some s.nextTimerId) ∧
       (n - (now + 60) * (d : Int) ≤ 0 →
        (applyToken now tok s).armedTimers = [] ∧
        (applyToken now tok s).refreshTimerRef = none))) := by
  constructor
  · intro s hreach
    rcases timerInv_reachable hreach with h | ⟨t, harm, _⟩
    · rw [h]; decide
    · rw [harm]; simp
  · intro s now tok payload n d hinv hdec htr hexp
    exact ⟨fun hpos => applyToken_arms now s hinv hdec htr hexp hpos,
           fun hneg => applyToken_no_arm now s hinv hdec htr hexp hneg⟩

/-- Witness for C1: on a fresh mount, applying `tokenAdmin` (expiry 1000,
clock 0) arms exactly the timer with delay `(1000 − 0 − 60) · 1000` ms. -/
theorem c1_refresh_timer_discipline_witness :
    initAuthState.armedTimers.length ≤ 1 ∧
    (applyToken 0 tokenAdmin initAuthState).armedTimers =
      [⟨initAuthState.nextTimerId,
        ⟨(1000 - (0 + 60) * ((1 : Nat) : Int)) * 1000, 1⟩⟩] ∧
    (applyToken 0 tokenAdmin initAuthState).refreshTimerRef =
      some initAuthState.nextTimerId :=
  ⟨c1_refresh_timer_discipline.1 initAuthState Reachable.init,
   (c1_refresh_timer_discipline.2 initAuthState 0 tokenAdmin payloadAdmin 1000 1
      (Or.inl rfl) (by rfl) (by rfl) (by rfl)).1 (by decide)⟩

/-- C2.  At every reachable state, the access token is non-null iff the
claims/user object is non-null, that conjunction is what `isAuthenticated`
reports, and every transition preserves the coupling (token and claims are
set or cleared together). -/
theorem c2_token_claims_coupled :
    (∀ s : AuthState, Reachable s →
      (s.token = none ↔ s.user = none) ∧
      isAuthenticated s = (s.token.isSome && s.user.isSome)) ∧
    (∀ (s : AuthState) (st : AuthStep),
      (s.token = none ↔ s.user = none) →
      ((authStep s st).token = none ↔ (authStep s st).user = none)) :=
  ⟨fun _ h => ⟨pairInv_reachable h, rfl⟩, fun s st h => pairInv_authStep s st h⟩

/-- Witness for C2: the coupling at the initial state and across a logout
step. -/
theorem c2_token_claims_coupled_witness :
    ((initAuthState.token = none ↔ initAuthState.user = none) ∧
      isAuthenticated initAuthState =
        (initAuthState.token.isSome && initAuthState.user.isSome)) ∧
    ((authStep initAuthState (.doLogout 0 true)).token = none ↔
      (authStep initAuthState (.doLogout 0 true)).user = none) :=
  ⟨c2_token_claims_coupled.1 initAuthState Reachable.init,
   c2_token_claims_coupled.2 initAuthState (.doLogout 0 true)
     ⟨fun _ => rfl, fun _ => rfl⟩⟩

/-- C3.  `logout` always terminates with the session cleared — token null and
claims null — and the audit session identifier reset, regardless of whether
the best-effort server notification succeeds or fails; and it cancels any
pending refresh timer synchronously before issuing that notification. -/
theorem c3_logout_clears_session :
    ∀ (s : AuthState) (now : Int), timerInv s →
      ((logoutBeforeNotify now s).armedTimers = [] ∧
       (logoutBeforeNotify now s).refreshTimerRef = none) ∧
      (∀ serverNotifyOk : Bool,
        (logoutStep now serverNotifyOk s).token = none ∧
        (logoutStep now serverNotifyOk s).user = none ∧
        (logoutStep now serverNotifyOk s).auditUserId = .jnull ∧
        (logoutStep now serverNotifyOk s).auditSessionGen = s.auditSessionGen + 1) ∧
      logoutStep now true s = logoutStep now false s := by
  intro s now hinv
  refine ⟨clear_resolves _ (timerInv_pushEvent s now .logout none [] hinv),
          fun ok => ⟨rfl, rfl, rfl, ?_⟩, rfl⟩
  show (logoutBeforeNotify now s).auditSessionGen + 1 = s.auditSessionGen + 1
  unfold logoutBeforeNotify
  rw [clear_gen, pushEvent_gen]

/-- Witness for C3: logout from the initial state. -/
theorem c3_logout_clears_session_witness :
    ((logoutBeforeNotify 2 initAuthState).armedTimers = [] ∧
     (logoutBeforeNotify 2 initAuthState).refreshTimerRef = none) ∧
    ((logoutStep 2 true initAuthState).token = none ∧
     (logoutStep 2 true initAuthState).user = none ∧
     (logoutStep 2 true initAuthState).auditUserId = .jnull ∧
     (logoutStep 2 true initAuthState).auditSessionGen =
       initAuthState.auditSessionGen + 1) ∧
    logoutStep 2 true initAuthState = logoutStep 2 false initAuthState := by
  obtain ⟨hA, hB, hC⟩ := c3_logout_clears_session initAuthState 2 (Or.inl rfl)
  exact ⟨hA, hB true, hC⟩

/-- C4.  For every malformed token — not three dot-separated segments, or a
payload segment that does not decode to JSON — `applyToken` is a no-op: the
whole session state (token, claims, timers, audit subject) is unchanged. -/
theorem c4_malformed_token_noop :
    (∀ tok : String, (splitDot tok).length ≠ 3 → decodeJwtPayload tok = none) ∧
    (∀ tok : String, (splitDot tok).length = 3 →
      decodePayload ((splitDot tok).getD 1 "") = none →
      decodeJwtPayload tok = none) ∧
    (∀ (s : AuthState) (now : Int) (tok : String),
      decodeJwtPayload tok = none → applyToken now tok s = s) :=
  ⟨fun _ h => decode_none_of_parts h,
   fun _ h3 hbad => decode_none_of_payload h3 hbad,
   fun s now _ h => applyToken_noop now s h⟩

/-- Witness for C4: a one-segment token and a three-segment token with an
undecodable payload are both no-ops. -/
theorem c4_malformed_token_noop_witness :
    decodeJwtPayload "garbage" = none ∧
    decodeJwtPayload "a.!!!.c" = none ∧
    applyToken 9 "garbage" initAuthState = initAuthState :=
  ⟨c4_malformed_token_noop.1 "garbage" (by decide),
   c4_malformed_token_noop.2.1 "a.!!!.c" (by rfl) (by rfl),
   c4_malformed_token_noop.2.2 initAuthState 9 "garbage"
     (c4_malformed_token_noop.1 "garbage" (by decide))⟩

/-- C5.  `hasRole r` is false for every `r` when unauthenticated; when
authenticated, `viewer` always holds, `reviewer` holds exactly when the
claims role is `'reviewer'` or `'admin'`, and `admin` exactly when the claims
role is `'admin'`. -/
theorem c5_hasRole_semantics :
    ∀ s : AuthState, Reachable s →
      (isAuthenticated s = false → ∀ r : UserRole, hasRole s r = false) ∧
      (isAuthenticated s = true →
        hasRole s .viewer = true ∧
        hasRole s .reviewer =
          (jsStrEq (roleOf s) "reviewer" || jsStrEq (roleOf s) "admin") ∧
        hasRole s .admin = jsStrEq (roleOf s) "admin") := by
  intro s hreach
  have hpair := pairInv_reachable hreach
  constructor
  · intro hauth r
    have huser : s.user = none := by
      rcases ht : s.token with _ | t
      · exact hpair.mp ht
      · rcases hu : s.user with _ | u
        · rfl
        · unfold isAuthenticated at hauth
          rw [ht, hu] at hauth
          simp at hauth
    unfold hasRole
    rw [huser]
  · intro hauth
    rcases hu : s.user with _ | u
    · unfold isAuthenticated at hauth
      rw [hpair.mpr hu, hu] at hauth
      simp at hauth
    · unfold hasRole roleOf
      rw [hu]
      exact ⟨rfl, rfl, rfl⟩

/-- Witness for C5: the role table at an authenticated admin state, and a
denied role at the unauthenticated initial state. -/
theorem c5_hasRole_semantics_witness :
    hasRole authedState .viewer = true ∧
    hasRole authedState .reviewer =
      (jsStrEq (roleOf authedState) "reviewer" || jsStrEq (roleOf authedState) "admin") ∧
    hasRole authedState .admin = jsStrEq (roleOf authedState) "admin" ∧
    hasRole initAuthState .admin = false := by
  have h := (c5_hasRole_semantics authedState
    (Reachable.step initAuthState (.applyTok tokenAdmin 0) Reachable.init)).2 (by rfl)
  exact ⟨h.1, h.2.1, h.2.2,
    (c5_hasRole_semantics initAuthState Reachable.init).1 rfl .admin⟩

/-- C6.  Every `apiFetch` call whose response status is 401 invokes the
injected logout handler exactly once, performs exactly one redirect (to
`/login`), throws the fixed session-expired text, draws nothing from the
response body, and does not retry (exactly one fetch). -/
theorem c6_api_401_handling :
    (∀ resp : HttpResponse, resp.status = 401 →
      apiFetchRespond resp =
        (⟨1, 1, ["/login"], []⟩,
         .thrown "Session expired. Please log in again.")) ∧
    (∀ r1 r2 : HttpResponse, r1.status = 401 → r2.status = 401 →
      apiFetchRespond r1 = apiFetchRespond r2) := by
  have h401 : ∀ resp : HttpResponse, resp.status = 401 →
      apiFetchRespond resp =
        (⟨1, 1, ["/login"], []⟩,
         .thrown "Session expired. Please log in again.") := by
    intro resp h
    simp [apiFetchRespond, h]
  exact ⟨h401, fun r1 r2 h1 h2 => (h401 r1 h1).trans (h401 r2 h2).symm⟩

/-- Witness for C6: a 401 with a juicy body and a 401 with an empty body
behave identically. -/
theorem c6_api_401_handling_witness :
    apiFetchRespond ⟨401, "\x7b\"message\":\"boom\"\x7d"⟩ =
      (⟨1, 1, ["/login"], []⟩,
       .thrown "Session expired. Please log in again.") ∧
    apiFetchRespond ⟨401, "\x7b\"message\":\"boom\"\x7d"⟩ =
      apiFetchRespond ⟨401, ""⟩ :=
  ⟨c6_api_401_handling.1 ⟨401, "\x7b\"message\":\"boom\"\x7d"⟩ rfl,
   c6_api_401_handling.2 ⟨401, "\x7b\"message\":\"boom\"\x7d"⟩ ⟨401, ""⟩ rfl rfl⟩

/-- C7.  A login receiving any non-OK response enqueues exactly one
`login_failed` audit event carrying the e-mail digest (never the raw e-mail)
before throwing, and the thrown error is the one fixed generic message,
identical for every cause of failure. -/
theorem c7_login_failure_generic :
    ∀ (s : AuthState) (now : Int) (email password : String) (status : Int)
      (body : String),
      ¬(200 ≤ status ∧ status ≤ 299) →
      loginStep now email password ⟨status, body⟩ s =
        (pushEvent now .login_failed none
          [("emailHash", .jstr (hashEmail email))] s,
         .error "Invalid email or password") ∧
      (loginStep now email password ⟨status, body⟩ s).1.auditQueue =
        s.auditQueue ++ [buildEvent now s.auditSessionGen s.auditUserId
          .login_failed none [("emailHash", .jstr (hashEmail email))]] ∧
      ∀ (status2 : Int) (body2 : String), ¬(200 ≤ status2 ∧ status2 ≤ 299) →
        (loginStep now email password ⟨status, body⟩ s).2 =
          (loginStep now email password ⟨status2, body2⟩ s).2 := by
  have hko : ∀ (status : Int) (body : String), ¬(200 ≤ status ∧ status ≤ 299) →
      respOk ⟨status, body⟩ = false := by
    intro status body h
    rcases not_and_or.mp h with h' | h' <;>
      simp [respOk, decide_eq_false h']
  have hstep : ∀ (s : AuthState) (now : Int) (email password : String)
      (status : Int) (body : String), ¬(200 ≤ status ∧ status ≤ 299) →
      loginStep now email password ⟨status, body⟩ s =
        (pushEvent now .login_failed none
          [("emailHash", .jstr (hashEmail email))] s,
         .error "Invalid email or password") := by
    intro s now email password status body h
    unfold loginStep
    rw [hko status body h]
    rfl
  intro s now email password status body h
  refine ⟨hstep s now email password status body h, ?_, ?_⟩
  · rw [hstep s now email password status body h]
    rfl
  · intro status2 body2 h2
    rw [hstep s now email password status body h,
        hstep s now email password status2 body2 h2]

/-- Witness for C7: two failed logins with different statuses and bodies give
the same fixed error and each enqueue one digest-only `login_failed` event. -/
theorem c7_login_failure_generic_witness :
    loginStep 4 "bob@example.com" "pw" ⟨401, "\x7b\"cause\":\"no-user\"\x7d"⟩
        initAuthState =
      (pushEvent 4 .login_failed none
        [("emailHash", .jstr (hashEmail "bob@example.com"))] initAuthState,
       .error "Invalid email or password") ∧
    (loginStep 4 "bob@example.com" "pw" ⟨401, "\x7b\"cause\":\"no-user\"\x7d"⟩
        initAuthState).2 =
      (loginStep 4 "bob@example.com" "pw" ⟨500, "\x7b\"cause\":\"db-down\"\x7d"⟩
        initAuthState).2 := by
  have h := c7_login_failure_generic initAuthState 4 "bob@example.com" "pw" 401
    "\x7b\"cause\":\"no-user\"\x7d" (by omega)
  exact ⟨h.1, h.2.2 500 "\x7b\"cause\":\"db-down\"\x7d" (by omega)⟩

/-- C8.  `logLogin`/`logLoginFailed` events store exactly one metadata field:
a fixed-length (64-character) hexadecimal SHA-256 digest computed
deterministically from the lower-cased, trimmed e-mail — equal normalised
inputs give equal digests; the raw e-mail string is never stored. -/
theorem c8_email_digest_only :
    ∀ (email : String) (now : Int) (gen : Nat) (uid : JsVal),
      (auditOpEvent (.logLogin email) now gen uid).metadata =
        [("emailHash", .jstr (hashEmail email))] ∧
      (auditOpEvent (.logLoginFailed email) now gen uid).metadata =
        [("emailHash", .jstr (hashEmail email))] ∧
      (hashEmail email).length = 64 ∧
      (∀ c ∈ (hashEmail email).data, c ∈ "0123456789abcdef".data) ∧
      (∀ email2 : String, normalizeEmail email = normalizeEmail email2 →
        hashEmail email = hashEmail email2) :=
  fun email _ _ _ =>
    ⟨rfl, rfl, hashEmail_length email, hashEmail_hex email,
     fun _ h => hashEmail_congr h⟩

/-- Witness for C8: events for a mixed-case padded e-mail store only its
64-character digest, equal to the digest of its normalised form. -/
theorem c8_email_digest_only_witness :
    (auditOpEvent (.logLogin " Alice@Example.COM") 0 0 .jnull).metadata =
      [("emailHash", .jstr (hashEmail " Alice@Example.COM"))] ∧
    (hashEmail " Alice@Example.COM").length = 64 ∧
    hashEmail " Alice@Example.COM" = hashEmail "alice@example.com  " := by
  have h := c8_email_digest_only " Alice@Example.COM" 0 0 .jnull
  exact ⟨h.1, h.2.2.1, h.2.2.2.2 "alice@example.com  " (by rfl)⟩

/-- Counterexample to C9 as stated: `logLogin` does not complete
synchronously — its trace suspends at `await hashEmail(email)` before the
enqueue (observably, the event is not yet queued when the call returns). -/
theorem c9_counterexample :
    isSyncTrace (auditOpTrace (.logLogin "user@example.com") 0 0 .jnull) = false :=
  rfl

/-- C9 (amended).  Every audit-logger enqueue operation never throws and
appends exactly one event to the queue, leaving previously queued events
untouched and in order; the six plain operations complete synchronously,
while `logLogin` and `logLoginFailed` are asynchronous (they first await the
e-mail digest). -/
theorem c9_enqueue_append_only :
    ∀ (op : AuditOp) (now : Int) (gen : Nat) (uid : JsVal)
      (q : List AuditEvent),
      applyTrace q (auditOpTrace op now gen uid) =
        q ++ [auditOpEvent op now gen uid] ∧
      isSyncTrace (auditOpTrace op now gen uid) = !op.isAsyncOp := by
  intro op now gen uid q
  cases op <;> exact ⟨rfl, rfl⟩

/-- C10.  An OK refresh response whose `accessToken` fails to decode leaves
the session exactly as it was (no update, no clearing, timer untouched) yet
still enqueues one `token_refresh` audit event. -/
theorem c10_refresh_audit_no_transition :
    ∀ (s : AuthState) (now : Int) (body : String) (data : JsVal) (tok : String),
      jsonParse body = some data →
      data.getProp "accessToken" = .jstr tok →
      decodeJwtPayload tok = none →
      silentRefreshOk now body s =
        { s with auditQueue := s.auditQueue ++
            [buildEvent now s.auditSessionGen s.auditUserId
              .token_refresh none []] } :=
  fun s now _ _ _ h1 h2 h3 => silentRefreshOk_noTransition now s h1 h2 h3

/-- Witness for C10: an OK body carrying the undecodable token `"zzz"` only
appends the `token_refresh` event. -/
theorem c10_refresh_audit_no_transition_witness :
    silentRefreshOk 3 "\x7b\"accessToken\":\"zzz\"\x7d" initAuthState =
      { initAuthState with auditQueue := initAuthState.auditQueue ++
          [buildEvent 3 initAuthState.auditSessionGen initAuthState.auditUserId
            .token_refresh none []] } :=
  c10_refresh_audit_no_transition initAuthState 3 "\x7b\"accessToken\":\"zzz\"\x7d"
    (.jobj [("accessToken", .jstr "zzz")]) "zzz" (by rfl) (by rfl) (by rfl)

end ReactFrontend

